import Mathlib

/-!
Shallow embedding of the two pipelines in `src/index.ts` of the
cloudflare-oneclick repository.

Pipeline A (capture & batch forwarder): `cfg`/`toNumber` config resolution,
the batch queue with `flushScheduled`/`backoffUntil`/`backoffMs` state, the
`flush` sink client, and the timer discipline of `logAndBatch`/`scheduleFlush`.

Pipeline B (sampling & resilient forwarder): the sampling gate built on
`clamp`, the redaction / forced-header filter, and the bounded retry loop
with `RETRIES = 2`.

JavaScript numbers that can be NaN are modelled as `Option` (with `none`
standing for NaN); machine integers are `Int`/`Nat`; the uniform random
draws (`Math.random()`, jitter) are explicit parameters; HTTP outcomes of
`fetch` are explicit inputs (a status, or a transport error).
-/

namespace Oneclick

/-! ### JavaScript numeric parsing

`parseInt(v, 10)` skips leading whitespace, accepts an optional sign and
then the longest digit prefix; it returns NaN when no digit is found.
Modelled as `Option Int` with `none` for NaN. -/

def isJsSpace (c : Char) : Bool :=
  c = ' ' || c = '\t' || c = '\n' || c = '\r'

def digitsVal (cs : List Char) : Nat :=
  (cs.takeWhile Char.isDigit).foldl (fun a c => a * 10 + (c.toNat - 48)) 0

def startsWithDigit : List Char → Bool
  | [] => false
  | c :: _ => c.isDigit

def jsParseInt (s : String) : Option Int :=
  let cs := s.data.dropWhile isJsSpace
  match cs with
  | '-' :: rest => if startsWithDigit rest then some (-(digitsVal rest : Int)) else none
  | '+' :: rest => if startsWithDigit rest then some ((digitsVal rest : Int)) else none
  | _ => if startsWithDigit cs then some ((digitsVal cs : Int)) else none

/-- Function `toNumber` from `src/index.ts` (lines 45-48):
`const n = v != null ? parseInt(v, 10) : NaN; return Number.isFinite(n) ? n : fallback;`.
The parse result of `parseInt` is `NaN` or an integer (always finite), so the
result is the fallback exactly when the override is absent or unparseable. -/
def toNumber (v : Option String) (fallback : Int) : Int :=
  match v with
  | none => fallback
  | some s =>
    match jsParseInt s with
    | none => fallback
    | some n => n

/-! ### Pipeline A configuration -/

structure EnvA where
  BATCH_MS : Option String
  BATCH_MAX_REQUESTS : Option String
  BACKOFF_BASE_MS : Option String
  BACKOFF_MAX_MS : Option String

structure ConfigA where
  batchMs : Int
  batchMax : Int
  backoffBase : Int
  backoffMax : Int

/-- Function `cfg` from `src/index.ts` (lines 33-43), numeric part, with the
documented defaults of lines 26-31. -/
def cfg (e : EnvA) : ConfigA :=
  { batchMs := toNumber e.BATCH_MS 20000
    batchMax := toNumber e.BATCH_MAX_REQUESTS 200
    backoffBase := toNumber e.BACKOFF_BASE_MS 2000
    backoffMax := toNumber e.BACKOFF_MAX_MS 60000 }

/-! ### Pipeline B per-attempt timeout

`const timeoutMs = Math.max(1, parseInt(env.REQUEST_TIMEOUT_MS || "6000", 10))`
(line 242).  `||` replaces only `undefined`/`""` by the default string; a
present non-numeric string makes `parseInt` return NaN and `Math.max(1, NaN)`
is NaN, modelled as `none`. -/
def timeoutMs (v : Option String) : Option Int :=
  let s := match v with
    | none => "6000"
    | some s => if s = "" then "6000" else s
  match jsParseInt s with
  | none => none
  | some n => some (max 1 n)

/-! ### Pipeline B sampling gate -/

/-- Function `clamp` from `src/index.ts` (line 274):
`if (Number.isNaN(n)) return min; return Math.max(min, Math.min(max, n))`.
`none` stands for NaN. -/
def clamp (n : Option ℚ) (lo hi : ℚ) : ℚ :=
  match n with
  | none => lo
  | some x => max lo (min hi x)

/-! ### Pipeline B retry engine

`RETRIES = 2` (line 207); the loop of lines 244-270 increments `attempt`,
issues the upstream POST, retries on status ≥ 500 while `attempt ≤ RETRIES+1`,
returns the status otherwise; on a transport error / timeout it returns 524
when `attempt > RETRIES + 1` and loops otherwise. -/

def RETRIES : Nat := 2

/-- Outcome of one upstream `fetch` attempt: an HTTP status, or a
transport-level error / abort-on-timeout (the `catch` branch). -/
inductive UpOutcome where
  | ok (status : Nat)
  | err
deriving DecidableEq, Repr

/-- One pass of the retry loop from `attempt` prior attempts, with enough
fuel; returns `(final status, total number of upstream attempts)`.
`outcomes n` is what the `n`-th upstream call (1-indexed) yields. -/
def retryAux (outcomes : Nat → UpOutcome) : Nat → Nat → Option (Nat × Nat)
  | _, 0 => none
  | attempt, fuel + 1 =>
    let a := attempt + 1
    match outcomes a with
    | .ok s =>
      if 500 ≤ s ∧ a ≤ RETRIES + 1 then retryAux outcomes a fuel
      else some (s, a)
    | .err =>
      if RETRIES + 1 < a then some (524, a)
      else retryAux outcomes a fuel

/-- The retry loop of `fetch` (Pipeline B), run from `attempt = 0`.  Fuel
`RETRIES + 2` is enough: once `attempt` reaches `RETRIES + 2` both branches
return. -/
def retryLoop (outcomes : Nat → UpOutcome) : Option (Nat × Nat) :=
  retryAux outcomes 0 (RETRIES + 2)

/-- The Pipeline B `fetch` handler after the health check, as a function of
the parsed sample rate (`none` = NaN), the single uniform draw
`r = Math.random() ∈ [0,1)`, and the upstream outcomes.  Returns
`(status returned to the caller, number of upstream POST calls)`. -/
def pipelineB (rateParsed : Option ℚ) (r : ℚ) (outcomes : Nat → UpOutcome) :
    Nat × Nat :=
  let rate := clamp rateParsed 0 1
  if r > rate then (204, 0)
  else
    match retryLoop outcomes with
    | some p => p
    | none => (0, 0)

/-! ### Pipeline A batch / backoff state

`let batch = []; let flushScheduled = false; let backoffUntil = 0; let backoffMs = 0`
(lines 51-54).  The queue element type is a parameter (the log objects are
opaque to the batching logic). -/

structure BatchState (α : Type) where
  queue : List α
  flushScheduled : Bool
  backoffUntil : Int
  backoffMs : Int
deriving DecidableEq, Repr

/-- Outcome of the sink POST inside `flush`: an HTTP status, or the `catch`
branch (network / transport error). -/
inductive FlushOutcome where
  | status (s : Nat)
  | transportErr
deriving DecidableEq, Repr

/-- Classification used by `flush` (lines 146-167): the `catch` branch and
statuses 429 / 403 are failures; every other status takes the `else` branch. -/
def isFlushFailure : FlushOutcome → Bool
  | .status s => s = 429 || s = 403
  | .transportErr => true

/-- The update `backoffMs = backoffMs ? Math.min(backoffMs * 2, backoffMax) : backoffBase`
(lines 151 and 163; `0` is the only falsy `backoffMs` value reachable here). -/
def stepBackoff (base maxMs b : Int) : Int :=
  if b ≠ 0 then min (b * 2) maxMs else base

/-- Value of `backoffMs` after `n` consecutive failures starting from the reset value
`0` (its initial value, and its value right after any success). -/
def iterBackoff (base maxMs : Int) : Nat → Int
  | 0 => 0
  | n + 1 => stepBackoff base maxMs (iterBackoff base maxMs n)

structure FlushResult (α : Type) where
  state : BatchState α
  posted : Option (List α)
deriving DecidableEq, Repr

/-- Function `flush` (lines 122-168).  Here `now` is `Date.now()` at entry, `now2` is
`Date.now()` when `backoffUntil` is recomputed after the POST, `u` is the
`Math.random()` draw used for the jitter `Math.floor(u * 500)`, `outcome` is
what the sink POST yields, and `arrivals` are the events appended to `batch`
by interleaved captures while the POST is awaited (the swap left `batch`
empty).  `posted` is the outbox actually sent, `none` when no network call
is made. -/
def flush {α : Type} (e : EnvA) (st : BatchState α) (now : Int)
    (outcome : FlushOutcome) (arrivals : List α) (u : ℚ) (now2 : Int) :
    FlushResult α :=
  if now < st.backoffUntil then ⟨st, none⟩
  else
    let c := cfg e
    let toSend := st.queue
    if toSend.length = 0 then ⟨{ st with queue := [] }, none⟩
    else
      if isFlushFailure outcome then
        let b := stepBackoff c.backoffBase c.backoffMax st.backoffMs
        let jitter : Int := Int.floor (u * 500)
        ⟨{ queue := toSend ++ arrivals
           flushScheduled := st.flushScheduled
           backoffUntil := now2 + b + jitter
           backoffMs := b }, some toSend⟩
      else
        ⟨{ st with queue := arrivals, backoffMs := 0, backoffUntil := 0 }, some toSend⟩

/-! ### Flush-timer discipline

`logAndBatch` (lines 57-78) arms a timer through `scheduleFlush` only when
`flushScheduled` is false (and not at all on the size-trigger branch, which
flushes directly); `scheduleFlush` (lines 112-120) resets `flushScheduled`
to false when the delay elapses and only then decides whether to flush. -/

structure TimerState where
  flushScheduled : Bool
  outstanding : Nat
deriving DecidableEq, Repr

/-- Event `append full` is one `logAndBatch` call (`full` = the
`batch.length >= batchMax` branch, which flushes instead of arming);
`fire` is a `scheduleFlush` timer elapsing. -/
inductive TimerEvent where
  | append (full : Bool)
  | fire
deriving DecidableEq, Repr

def timerStep (st : TimerState) : TimerEvent → TimerState
  | .append full =>
    if full then st
    else if st.flushScheduled then st
    else { flushScheduled := true, outstanding := st.outstanding + 1 }
  | .fire => { flushScheduled := false, outstanding := st.outstanding - 1 }

/-- The tail of `scheduleFlush` after the sleep: set the flag to false, then
decide whether to flush (`batch.length > 0`).  Returns
(new `flushScheduled`, whether `flush` is invoked). -/
def timerFire (queueLen : Nat) : Bool × Bool :=
  (false, decide (0 < queueLen))

/-! ### Pipeline B redaction and forced headers

`Headers` is modelled as a partial map from (lowercase, per the platform's
case-insensitive normalization) header names to values. -/

def lcChar (c : Char) : Char :=
  if 'A' ≤ c ∧ c ≤ 'Z' then Char.ofNat (c.toNat + 32) else c

/-- ASCII lowercasing, as applied by `toLowerCase()` on header names. -/
def lc (s : String) : String := ⟨s.data.map lcChar⟩

def jsTrim (s : String) : String :=
  ⟨((s.data.dropWhile isJsSpace).reverse.dropWhile isJsSpace).reverse⟩

/-- JS `String.prototype.split(",")`. -/
def splitCommaAux : List Char → List Char → List String
  | [], acc => [⟨acc.reverse⟩]
  | c :: cs, acc =>
    if c = ',' then (⟨acc.reverse⟩ : String) :: splitCommaAux cs []
    else splitCommaAux cs (c :: acc)

/-- The redact set of lines 217-222:
`(env.REDACT_HEADERS ?? "authorization,cookie").split(",").map(h => h.trim().toLowerCase()).filter(Boolean)`.
Kept as a list (the JS `Set` dedupes, but redacting a name twice equals
redacting it once, so folding over the undeduped list is equivalent). -/
def redactList (v : Option String) : List String :=
  ((splitCommaAux (v.getD "authorization,cookie").data []).map
    (fun h => lc (jsTrim h))).filter (fun h => h ≠ "")

def Headers : Type := String → Option String

/-- JS `Headers.prototype.get` (on lowercase names). -/
def hget (hs : Headers) (k : String) : Option String := hs k

/-- JS `Headers.prototype.has`. -/
def hhas (hs : Headers) (k : String) : Bool := (hs k).isSome

/-- JS `Headers.prototype.set`. -/
def hset (hs : Headers) (k v : String) : Headers :=
  fun k' => if k' = k then some v else hs k'

/-- Construction `new Headers(request.headers)`: the raw name/value pairs, names
normalized case-insensitively (first pair wins for a duplicate name). -/
def mkHeaders (ps : List (String × String)) : Headers :=
  fun k => (ps.find? (fun p => lc p.1 = k)).map Prod.snd

def REDACTED : String := "__REDACTED__"

def UA : String := "cf-forwarder/1.2"

/-- The toggle `(env.SIGN_BODY ?? "false").toLowerCase() === "true"` (line 231). -/
def signEnabled (v : Option String) : Bool := lc (v.getD "false") = "true"

/-- JS truthiness test of `forwardHeaders.get("content-type")` (line 228):
`null` and `""` are falsy. -/
def isFalsyStr : Option String → Bool
  | none => true
  | some s => s = ""

/-- One iteration of the redaction loop (line 225):
`if (forwardHeaders.has(h)) forwardHeaders.set(h, "__REDACTED__")`. -/
def redactStep (hs : Headers) (name : String) : Headers :=
  if hhas hs name then hset hs name REDACTED else hs

/-- The header transform of the Pipeline B `fetch` (lines 224-240): copy the
inbound headers, overwrite every present redact-set name with the marker,
force `x-tenant-key` and `user-agent`, default `content-type`, and attach
`x-signature` when signing is enabled (`signature` is the computed HMAC,
opaque here). -/
def forwardHeaders (reqRaw : List (String × String)) (redactEnv : Option String)
    (tenantKey : String) (signEnv : Option String) (signature : String) : Headers :=
  let fh0 := mkHeaders reqRaw
  let fh1 := (redactList redactEnv).foldl redactStep fh0
  let fh2 := hset fh1 "x-tenant-key" tenantKey
  let fh3 := hset fh2 "user-agent" UA
  let fh4 := if isFalsyStr (hget fh3 "content-type")
             then hset fh3 "content-type" "application/json" else fh3
  if signEnabled signEnv then hset fh4 "x-signature" signature else fh4

/-! ## Helper lemmas -/

theorem toNumber_fallback (v : Option String) (fallback : Int)
    (h : v.bind jsParseInt = none) : toNumber v fallback = fallback := by
  cases v with
  | none => rfl
  | some s =>
    simp only [Option.some_bind] at h
    simp [toNumber, h]

theorem retryAux_total (outcomes : Nat → UpOutcome) :
    ∀ fuel attempt, attempt + fuel = RETRIES + 2 → attempt ≤ RETRIES + 1 →
      ∃ s n, retryAux outcomes attempt fuel = some (s, n) ∧
        attempt < n ∧ n ≤ RETRIES + 2 := by
  intro fuel
  induction fuel with
  | zero =>
    intro attempt h1 h2
    exact absurd h1 (by omega)
  | succ fuel ih =>
    intro attempt h1 h2
    simp only [retryAux]
    cases ho : outcomes (attempt + 1) with
    | ok s =>
      dsimp only
      by_cases hc : 500 ≤ s ∧ attempt + 1 ≤ RETRIES + 1
      · rw [if_pos hc]
        obtain ⟨s', n, hn, h3, h4⟩ := ih (attempt + 1) (by omega) hc.2
        exact ⟨s', n, hn, by omega, h4⟩
      · rw [if_neg hc]
        exact ⟨s, attempt + 1, rfl, by omega, by omega⟩
    | err =>
      dsimp only
      by_cases hc : RETRIES + 1 < attempt + 1
      · rw [if_pos hc]
        exact ⟨524, attempt + 1, rfl, by omega, by omega⟩
      · rw [if_neg hc]
        obtain ⟨s', n, hn, h3, h4⟩ := ih (attempt + 1) (by omega) (by omega)
        exact ⟨s', n, hn, by omega, h4⟩

theorem flush_active_failure {α : Type} (e : EnvA) (st : BatchState α)
    (now now2 : Int) (u : ℚ) (outcome : FlushOutcome) (arrivals : List α)
    (hb : ¬ now < st.backoffUntil) (hq : ¬ st.queue.length = 0)
    (hf : isFlushFailure outcome = true) :
    flush e st now outcome arrivals u now2 =
      ⟨{ queue := st.queue ++ arrivals
         flushScheduled := st.flushScheduled
         backoffUntil := now2 + stepBackoff (cfg e).backoffBase (cfg e).backoffMax st.backoffMs
             + Int.floor (u * 500)
         backoffMs := stepBackoff (cfg e).backoffBase (cfg e).backoffMax st.backoffMs },
       some st.queue⟩ := by
  simp only [flush]
  rw [if_neg hb, if_neg hq, if_pos hf]

theorem flush_active_success {α : Type} (e : EnvA) (st : BatchState α)
    (now now2 : Int) (u : ℚ) (outcome : FlushOutcome) (arrivals : List α)
    (hb : ¬ now < st.backoffUntil) (hq : ¬ st.queue.length = 0)
    (hf : isFlushFailure outcome = false) :
    flush e st now outcome arrivals u now2 =
      ⟨{ st with queue := arrivals, backoffMs := 0, backoffUntil := 0 },
       some st.queue⟩ := by
  simp only [flush]
  rw [if_neg hb, if_neg hq, if_neg (by simp [hf])]

/-! ## Claim theorems -/

/-- C10: for every sequence of upstream outcomes (statuses or transport
errors / timeouts), the Pipeline B retry loop terminates with a response,
after at least one and at most `RETRIES + 2` upstream attempts. -/
theorem retry_loop_terminates (outcomes : Nat → UpOutcome) :
    ∃ s n, retryLoop outcomes = some (s, n) ∧ 1 ≤ n ∧ n ≤ RETRIES + 2 := by
  obtain ⟨s, n, hn, h1, h2⟩ := retryAux_total outcomes (RETRIES + 2) 0 (by omega) (by omega)
  exact ⟨s, n, hn, by omega, h2⟩

/-- C1: with `RETRIES = 2` and every upstream attempt returning status 500,
the retry loop performs `RETRIES + 2 = 4` upstream POSTs and then returns
the last attempt's status — not the `RETRIES + 1 = 3` total attempts that
the claim and the code's own comment on line 207
(`total attempts = RETRIES + 1`) state. -/
theorem retry_all_500_attempt_count :
    retryLoop (fun _ => UpOutcome.ok 500) = some (500, 4) ∧ 4 ≠ RETRIES + 1 :=
  ⟨by decide, by decide⟩

/-- C2 counterexample: at configured rate 0 (clamped rate 0) the draw
`r = 0` is admitted — `Math.random() > 0` is false at 0 — so an upstream
call is made and its status is returned to the caller, contradicting
"rate 0 admits nothing". -/
theorem rate_zero_draw_zero_admitted :
    pipelineB (some 0) 0 (fun _ => UpOutcome.ok 200) = (200, 1) ∧
    ((200 : Nat), (1 : Nat)) ≠ ((204 : Nat), (0 : Nat)) :=
  ⟨by decide, by decide⟩

/-- C2 (amended): the gate admits exactly the draws `r ≤ clamped rate`, so
rate 0 admits exactly the draw `r = 0` and rejects every other; rate 1
admits every draw in `[0,1)`; a NaN rate behaves as rate 0; and every
rejected call returns status 204 with zero upstream calls. -/
theorem sampling_gate_amended (rateParsed : Option ℚ) (r : ℚ) (o : Nat → UpOutcome) :
    (0 ≤ r → (¬ r > clamp (some 0) 0 1 ↔ r = 0)) ∧
    (0 ≤ r → r < 1 → ¬ r > clamp (some 1) 0 1) ∧
    pipelineB none r o = pipelineB (some 0) r o ∧
    (r > clamp rateParsed 0 1 → pipelineB rateParsed r o = (204, 0)) := by
  have h0 : clamp (some 0) 0 1 = 0 := by norm_num [clamp]
  have h1 : clamp (some 1) 0 1 = 1 := by norm_num [clamp]
  have hn : clamp none 0 1 = 0 := by norm_num [clamp]
  refine ⟨?_, ?_, ?_, ?_⟩
  · intro hr
    rw [h0]
    constructor
    · intro h
      push_neg at h
      linarith
    · intro h
      rw [h]
      norm_num
  · intro hr0 hr1
    rw [h1]
    linarith
  · simp only [pipelineB, hn, h0]
  · intro h
    simp only [pipelineB]
    rw [if_pos h]

/-- Witness for `sampling_gate_amended` at concrete inputs. -/
theorem sampling_gate_amended_witness :
    (¬ (0 : ℚ) > clamp (some 0) 0 1 ↔ (0 : ℚ) = 0) ∧
    (¬ (1/2 : ℚ) > clamp (some 1) 0 1) ∧
    pipelineB (some (1/2)) (3/4) (fun _ => UpOutcome.ok 200) = (204, 0) :=
  ⟨(sampling_gate_amended (some 0) 0 (fun _ => UpOutcome.ok 200)).1 (by norm_num),
   (sampling_gate_amended (some 1) (1/2) (fun _ => UpOutcome.ok 200)).2.1
     (by norm_num) (by norm_num),
   (sampling_gate_amended (some (1/2)) (3/4) (fun _ => UpOutcome.ok 200)).2.2.2
     (by norm_num [clamp])⟩

/-- C3 counterexample: `REQUEST_TIMEOUT_MS = "abc"` fails to parse, yet the
per-attempt timeout resolves to `Math.max(1, NaN) = NaN` (modelled `none`),
not to the documented default 6000 (which is used only when the override is
absent). -/
theorem timeout_parse_failure_nan :
    jsParseInt "abc" = none ∧ timeoutMs (some "abc") = none ∧
    timeoutMs none = some 6000 :=
  ⟨by decide, by decide, by decide⟩

/-- C3 (amended): the four Pipeline A numeric fields (batch flush interval,
batch size ceiling, backoff base, backoff max) resolve to their documented
defaults when the override is absent or unparseable and are never NaN;
Pipeline B's per-attempt timeout falls back to its default 6000 only when
the override is absent or the empty string — a present non-numeric override
resolves to NaN rather than the default. -/
theorem numeric_config_amended (e : EnvA) (s : String) (fallback : Int) :
    (e.BATCH_MS.bind jsParseInt = none → (cfg e).batchMs = 20000) ∧
    (e.BATCH_MAX_REQUESTS.bind jsParseInt = none → (cfg e).batchMax = 200) ∧
    (e.BACKOFF_BASE_MS.bind jsParseInt = none → (cfg e).backoffBase = 2000) ∧
    (e.BACKOFF_MAX_MS.bind jsParseInt = none → (cfg e).backoffMax = 60000) ∧
    toNumber none fallback = fallback ∧
    (jsParseInt s = none → toNumber (some s) fallback = fallback) ∧
    timeoutMs none = some 6000 ∧
    timeoutMs (some "") = some 6000 ∧
    (s ≠ "" → jsParseInt s = none → timeoutMs (some s) = none) := by
  refine ⟨fun h => toNumber_fallback _ _ h, fun h => toNumber_fallback _ _ h,
          fun h => toNumber_fallback _ _ h, fun h => toNumber_fallback _ _ h,
          rfl, fun h => by simp [toNumber, h], by decide, by decide, ?_⟩
  intro hne hp
  simp [timeoutMs, hne, hp]

/-- Witness for `numeric_config_amended` at concrete inputs. -/
theorem numeric_config_amended_witness :
    (cfg ⟨none, some "zz", none, none⟩).batchMax = 200 ∧
    toNumber (some "zz") 7 = 7 ∧
    timeoutMs (some "zz") = none := by
  have h := numeric_config_amended ⟨none, some "zz", none, none⟩ "zz" 7
  exact ⟨h.2.1 (by decide), h.2.2.2.2.2.1 (by decide),
         h.2.2.2.2.2.2.2.2 (by decide) (by decide)⟩

/-- C4: a flush attempt that reaches the POST is classified as a failure
exactly when a transport-level error occurred or the status is 429 or 403;
on every other status the batch is not requeued (the queue keeps only the
events appended during the attempt) and the backoff state is reset. -/
theorem flush_failure_classification {α : Type} (e : EnvA) (st : BatchState α)
    (now now2 : Int) (u : ℚ) (outcome : FlushOutcome) (arrivals : List α)
    (hb : ¬ now < st.backoffUntil) (hq : ¬ st.queue.length = 0) :
    (isFlushFailure outcome = true ↔
      outcome = .transportErr ∨ outcome = .status 429 ∨ outcome = .status 403) ∧
    (isFlushFailure outcome = false →
      (flush e st now outcome arrivals u now2).state.backoffMs = 0 ∧
      (flush e st now outcome arrivals u now2).state.backoffUntil = 0 ∧
      (flush e st now outcome arrivals u now2).state.queue = arrivals) := by
  constructor
  · cases outcome with
    | status s => simp [isFlushFailure]
    | transportErr => simp [isFlushFailure]
  · intro hf
    rw [flush_active_success e st now now2 u outcome arrivals hb hq hf]
    exact ⟨rfl, rfl, rfl⟩

/-- Witness for `flush_failure_classification`: a 404 response is treated as
success, the outbox is dropped and only the attempt-time arrivals remain. -/
theorem flush_failure_classification_witness :
    (isFlushFailure (.status 404) = true ↔
      FlushOutcome.status 404 = .transportErr ∨
      FlushOutcome.status 404 = .status 429 ∨ FlushOutcome.status 404 = .status 403) ∧
    (flush ⟨none, none, none, none⟩ (⟨[1], false, 0, 0⟩ : BatchState Nat) 5
      (.status 404) [2] 0 9).state.queue = [2] := by
  have h := flush_failure_classification ⟨none, none, none, none⟩
    (⟨[1], false, 0, 0⟩ : BatchState Nat) 5 9 0 (.status 404) [2] (by decide) (by decide)
  exact ⟨h.1, (h.2 (by decide)).2.2⟩

theorem stepBackoff_bounds (base maxMs b : Int) (h0 : 0 ≤ base) (h1 : base ≤ maxMs)
    (hb0 : 0 ≤ b) (hbm : b ≤ maxMs) :
    b ≤ stepBackoff base maxMs b ∧ 0 ≤ stepBackoff base maxMs b ∧
      stepBackoff base maxMs b ≤ maxMs := by
  unfold stepBackoff
  by_cases h : b ≠ 0
  · rw [if_pos h]
    exact ⟨le_min (by linarith) hbm, le_min (by linarith) (by linarith), min_le_right _ _⟩
  · rw [if_neg h]
    push_neg at h
    exact ⟨h ▸ h0, h0, h1⟩

theorem iterBackoff_bounds (base maxMs : Int) (h0 : 0 ≤ base) (h1 : base ≤ maxMs) :
    ∀ n, 0 ≤ iterBackoff base maxMs n ∧ iterBackoff base maxMs n ≤ maxMs ∧
      iterBackoff base maxMs n ≤ iterBackoff base maxMs (n + 1) := by
  intro n
  induction n with
  | zero =>
    refine ⟨le_refl 0, ?_, ?_⟩
    · show (0 : Int) ≤ maxMs
      linarith
    show (0 : Int) ≤ stepBackoff base maxMs (iterBackoff base maxMs 0)
    exact (stepBackoff_bounds base maxMs 0 h0 h1 (le_refl 0) (by linarith)).2.1
  | succ n ih =>
    obtain ⟨ha, hm, _⟩ := ih
    have hstep := stepBackoff_bounds base maxMs (iterBackoff base maxMs n) h0 h1 ha hm
    have hstep2 := stepBackoff_bounds base maxMs (iterBackoff base maxMs (n + 1)) h0 h1
      hstep.2.1 hstep.2.2
    exact ⟨hstep.2.1, hstep.2.2, hstep2.1⟩

/-- C5 (amended): provided the configured backoff base lies between 0 and the
configured max (as the defaults 2000 ≤ 60000 do), `backoffMs` is
non-decreasing and never exceeds the max across any streak of consecutive
failures starting from the reset value 0; each failure advances `backoffMs`
by `stepBackoff` and sets `backoffUntil` to the post-attempt time plus
`backoffMs` plus the jitter `⌊u·500⌋`, which lies in `[0, 500)`; and any
success resets both `backoffMs` and `backoffUntil` to 0. -/
theorem backoff_amended {α : Type} (e : EnvA) (st : BatchState α)
    (now now2 : Int) (u : ℚ) (outcome : FlushOutcome) (arrivals : List α) (n : Nat)
    (hb : ¬ now < st.backoffUntil) (hq : ¬ st.queue.length = 0) :
    (isFlushFailure outcome = true →
      (flush e st now outcome arrivals u now2).state.backoffMs
        = stepBackoff (cfg e).backoffBase (cfg e).backoffMax st.backoffMs ∧
      (flush e st now outcome arrivals u now2).state.backoffUntil
        = now2 + (flush e st now outcome arrivals u now2).state.backoffMs
            + Int.floor (u * 500)) ∧
    (0 ≤ u → u < 1 → 0 ≤ Int.floor (u * 500) ∧ Int.floor (u * 500) < 500) ∧
    (0 ≤ (cfg e).backoffBase → (cfg e).backoffBase ≤ (cfg e).backoffMax →
      iterBackoff (cfg e).backoffBase (cfg e).backoffMax n
        ≤ iterBackoff (cfg e).backoffBase (cfg e).backoffMax (n + 1) ∧
      iterBackoff (cfg e).backoffBase (cfg e).backoffMax n ≤ (cfg e).backoffMax) ∧
    (isFlushFailure outcome = false →
      (flush e st now outcome arrivals u now2).state.backoffMs = 0 ∧
      (flush e st now outcome arrivals u now2).state.backoffUntil = 0) := by
  refine ⟨?_, ?_, ?_, ?_⟩
  · intro hf
    rw [flush_active_failure e st now now2 u outcome arrivals hb hq hf]
    exact ⟨rfl, rfl⟩
  · intro hu0 hu1
    constructor
    · exact Int.floor_nonneg.mpr (by positivity)
    · exact Int.floor_lt.mpr (by push_cast; linarith)
  · intro h0 h1
    have h := iterBackoff_bounds (cfg e).backoffBase (cfg e).backoffMax h0 h1 n
    exact ⟨h.2.2, h.2.1⟩
  · intro hf
    rw [flush_active_success e st now now2 u outcome arrivals hb hq hf]
    exact ⟨rfl, rfl⟩

/-- Witness for `backoff_amended` at concrete inputs (defaults 2000/60000). -/
theorem backoff_amended_witness :
    (flush ⟨none, none, none, none⟩ (⟨[1], false, 0, 0⟩ : BatchState Nat) 0
        .transportErr [] (1/2) 100).state.backoffMs = 2000 ∧
    (0 ≤ (⌊(1/2 : ℚ) * 500⌋ : Int) ∧ (⌊(1/2 : ℚ) * 500⌋ : Int) < 500) ∧
    iterBackoff 2000 60000 1 ≤ 60000 ∧
    (flush ⟨none, none, none, none⟩ (⟨[1], false, 0, 7⟩ : BatchState Nat) 0
        (.status 200) [] 0 100).state.backoffMs = 0 := by
  have h1 := backoff_amended ⟨none, none, none, none⟩
    (⟨[1], false, 0, 0⟩ : BatchState Nat) 0 100 (1/2) .transportErr [] 1
    (by decide) (by decide)
  have h2 := backoff_amended ⟨none, none, none, none⟩
    (⟨[1], false, 0, 7⟩ : BatchState Nat) 0 100 0 (.status 200) [] 1
    (by decide) (by decide)
  refine ⟨?_, h1.2.1 (by norm_num) (by norm_num), ?_, (h2.2.2.2 (by decide)).1⟩
  · rw [(h1.1 rfl).1]
    decide
  · exact (h1.2.2.1 (by decide) (by decide)).2

/-- C5 counterexample: with configured backoff base 5 and max 3 (base > max),
the first failure from the reset state sets `backoffMs = 5`, which already
exceeds the configured max 3, and the next failure lowers it to 3 — so as
stated (for every configuration) `backoffMs` is neither capped by the max
nor non-decreasing. -/
theorem backoff_exceeds_max :
    ((flush ⟨none, none, some "5", some "3"⟩ (⟨[0], false, 0, 0⟩ : BatchState Nat) 0
        .transportErr [] 0 0).state.backoffMs = 5 ∧
     (cfg ⟨none, none, some "5", some "3"⟩).backoffMax = 3 ∧ ¬ (5 : Int) ≤ 3) ∧
    ((flush ⟨none, none, some "5", some "3"⟩ (⟨[0], false, 0, 5⟩ : BatchState Nat) 10
        .transportErr [] 0 10).state.backoffMs = 3 ∧ ¬ (5 : Int) ≤ 3) :=
  ⟨⟨by decide, by decide, by decide⟩, by decide, by decide⟩

/-- C6: on a failed flush attempt the requeued queue is exactly the
swapped-out outbox in its original order, followed by the events appended
during the attempt in their order — no interleaving, loss or duplication —
and the posted body was exactly the outbox. -/
theorem flush_requeue_order {α : Type} (e : EnvA) (st : BatchState α)
    (now now2 : Int) (u : ℚ) (outcome : FlushOutcome) (arrivals : List α)
    (hb : ¬ now < st.backoffUntil) (hq : ¬ st.queue.length = 0)
    (hf : isFlushFailure outcome = true) :
    (flush e st now outcome arrivals u now2).state.queue = st.queue ++ arrivals ∧
    (flush e st now outcome arrivals u now2).posted = some st.queue := by
  rw [flush_active_failure e st now now2 u outcome arrivals hb hq hf]
  exact ⟨rfl, rfl⟩

/-- Witness for `flush_requeue_order` at a concrete failing flush. -/
theorem flush_requeue_order_witness :
    (flush ⟨none, none, none, none⟩ (⟨[1, 2], false, 0, 0⟩ : BatchState Nat) 0
        .transportErr [3] 0 50).state.queue = [1, 2, 3] ∧
    (flush ⟨none, none, none, none⟩ (⟨[1, 2], false, 0, 0⟩ : BatchState Nat) 0
        .transportErr [3] 0 50).posted = some [1, 2] := by
  have h := flush_requeue_order ⟨none, none, none, none⟩
    (⟨[1, 2], false, 0, 0⟩ : BatchState Nat) 0 50 0 .transportErr [3]
    (by decide) (by decide) (by decide)
  exact ⟨h.1, h.2⟩

/-- C7: a flush entered during the backoff window, or with an empty queue,
performs no network call and returns with the entire state — queue,
`backoffMs`, `backoffUntil`, and the flag — unchanged. -/
theorem flush_noop {α : Type} (e : EnvA) (st : BatchState α)
    (now now2 : Int) (u : ℚ) (outcome : FlushOutcome) (arrivals : List α) :
    (now < st.backoffUntil → flush e st now outcome arrivals u now2 = ⟨st, none⟩) ∧
    (st.queue = [] → flush e st now outcome arrivals u now2 = ⟨st, none⟩) := by
  constructor
  · intro h
    simp only [flush]
    rw [if_pos h]
  · intro h
    by_cases hb : now < st.backoffUntil
    · simp only [flush]
      rw [if_pos hb]
    · simp only [flush]
      rw [if_neg hb, if_pos (by simp [h])]
      cases st with
      | mk q fs bu bm => simp_all

/-- Witness for `flush_noop`: an empty-queue flush and an in-backoff flush. -/
theorem flush_noop_witness :
    flush ⟨none, none, none, none⟩ (⟨[], false, 0, 0⟩ : BatchState Nat) 0
        .transportErr [] 0 0 = ⟨⟨[], false, 0, 0⟩, none⟩ ∧
    flush ⟨none, none, none, none⟩ (⟨[9], false, 5, 3⟩ : BatchState Nat) 1
        .transportErr [] 0 0 = ⟨⟨[9], false, 5, 3⟩, none⟩ :=
  ⟨(flush_noop _ _ _ _ _ _ _).2 rfl, (flush_noop _ _ _ _ _ _ _).1 (by decide)⟩

/-! ## Header lemmas -/

theorem hget_hset_same (hs : Headers) (k v : String) : hget (hset hs k v) k = some v := by
  simp [hget, hset]

theorem hget_hset_ne (hs : Headers) (k v k' : String) (h : k' ≠ k) :
    hget (hset hs k v) k' = hget hs k' := by
  simp [hget, hset, h]

theorem hhas_eq_isSome (hs : Headers) (k : String) : hhas hs k = (hget hs k).isSome := rfl

theorem redactStep_get_other (hs : Headers) (n k : String) (h : k ≠ n) :
    hget (redactStep hs n) k = hget hs k := by
  unfold redactStep
  by_cases hh : hhas hs n
  · rw [if_pos hh]
    exact hget_hset_ne hs n REDACTED k h
  · rw [if_neg hh]

theorem redactStep_preserves_marker (hs : Headers) (n k : String)
    (h : hget hs k = some REDACTED) :
    hget (redactStep hs n) k = some REDACTED := by
  by_cases hk : k = n
  · subst hk
    unfold redactStep
    by_cases hh : hhas hs k
    · rw [if_pos hh]
      exact hget_hset_same hs k REDACTED
    · rw [if_neg hh]
      exact h
  · rw [redactStep_get_other hs n k hk]
    exact h

theorem redactFold_preserves_marker (names : List String) (hs : Headers) (k : String)
    (h : hget hs k = some REDACTED) :
    hget (names.foldl redactStep hs) k = some REDACTED := by
  induction names generalizing hs with
  | nil => exact h
  | cons n rest ih => exact ih (redactStep hs n) (redactStep_preserves_marker hs n k h)

theorem redactFold_sets (names : List String) (hs : Headers) (k : String)
    (hk : k ∈ names) (hh : hhas hs k = true) :
    hget (names.foldl redactStep hs) k = some REDACTED := by
  induction names generalizing hs with
  | nil => cases hk
  | cons n rest ih =>
    by_cases he : k = n
    · subst he
      rw [List.foldl_cons]
      apply redactFold_preserves_marker
      unfold redactStep
      rw [if_pos hh]
      exact hget_hset_same hs k REDACTED
    · have hk' : k ∈ rest := by
        cases hk with
        | head => exact absurd rfl he
        | tail _ h => exact h
      have hh' : hhas (redactStep hs n) k = true := by
        rw [hhas_eq_isSome, redactStep_get_other hs n k he, ← hhas_eq_isSome]
        exact hh
      exact ih (redactStep hs n) hk' hh'

theorem tail_preserves (fh3 : Headers) (sig : String) (signEnv : Option String) (k : String)
    (hk1 : isFalsyStr (hget fh3 "content-type") = false ∨ k ≠ "content-type")
    (hk2 : signEnabled signEnv = true → k ≠ "x-signature") :
    hget (if signEnabled signEnv
          then hset (if isFalsyStr (hget fh3 "content-type")
                     then hset fh3 "content-type" "application/json" else fh3)
                 "x-signature" sig
          else (if isFalsyStr (hget fh3 "content-type")
                then hset fh3 "content-type" "application/json" else fh3)) k
      = hget fh3 k := by
  have hmid : hget (if isFalsyStr (hget fh3 "content-type")
      then hset fh3 "content-type" "application/json" else fh3) k = hget fh3 k := by
    cases hk1 with
    | inl h => rw [if_neg (by simp [h])]
    | inr h =>
      by_cases hcc : isFalsyStr (hget fh3 "content-type") = true
      · rw [if_pos hcc, hget_hset_ne _ _ _ _ h]
      · rw [if_neg hcc]
  by_cases hsg : signEnabled signEnv = true
  · rw [if_pos hsg, hget_hset_ne _ _ _ _ (hk2 hsg)]
    exact hmid
  · rw [if_neg hsg]
    exact hmid

/-- C8 counterexample: with configured redact set `user-agent`, the inbound
user-agent header is first redacted but then overwritten with the fixed
forwarder user-agent string, so the forwarded value is `cf-forwarder/1.2`
and not the redaction marker the claim requires for every present
redact-set name. -/
theorem redact_ua_overwritten :
    "user-agent" ∈ redactList (some "user-agent") ∧
    hhas (mkHeaders [("user-agent", "curl/8.0")]) "user-agent" = true ∧
    hget (forwardHeaders [("user-agent", "curl/8.0")] (some "user-agent") "tk" none "")
      "user-agent" = some UA ∧
    some UA ≠ some REDACTED :=
  ⟨by decide, by decide, by decide, by decide⟩

/-- C8 (amended): the forwarded request always carries `x-tenant-key` equal
to the configured tenant key and `user-agent` equal to the fixed forwarder
string, regardless of caller-supplied values; and every configured
redact-set name present on the inbound request is forwarded with the
redaction marker, except the names the later forced writes overwrite
(`x-tenant-key`, `user-agent`, and `x-signature` when signing is on). -/
theorem redaction_amended (req : List (String × String)) (redactEnv : Option String)
    (tenantKey sig : String) (signEnv : Option String) :
    hget (forwardHeaders req redactEnv tenantKey signEnv sig) "x-tenant-key"
      = some tenantKey ∧
    hget (forwardHeaders req redactEnv tenantKey signEnv sig) "user-agent" = some UA ∧
    (∀ name, name ∈ redactList redactEnv → hhas (mkHeaders req) name = true →
      name ≠ "x-tenant-key" → name ≠ "user-agent" →
      (signEnabled signEnv = true → name ≠ "x-signature") →
      hget (forwardHeaders req redactEnv tenantKey signEnv sig) name = some REDACTED) := by
  simp only [forwardHeaders]
  set fh1 := (redactList redactEnv).foldl redactStep (mkHeaders req) with hf1
  refine ⟨?_, ?_, ?_⟩
  · rw [tail_preserves _ _ _ _ (Or.inr (by decide)) (fun _ => by decide),
        hget_hset_ne _ _ _ _ (by decide), hget_hset_same]
  · rw [tail_preserves _ _ _ _ (Or.inr (by decide)) (fun _ => by decide),
        hget_hset_same]
  · intro name hmem hhh hn1 hn2 hn3
    have h1 : hget fh1 name = some REDACTED := by
      rw [hf1]
      exact redactFold_sets _ _ _ hmem hhh
    have h3 : hget (hset (hset fh1 "x-tenant-key" tenantKey) "user-agent" UA) name
        = some REDACTED := by
      rw [hget_hset_ne _ _ _ _ hn2, hget_hset_ne _ _ _ _ hn1]
      exact h1
    by_cases hct : name = "content-type"
    · subst hct
      rw [tail_preserves _ _ _ _ (Or.inl (by rw [h3]; decide)) hn3]
      exact h3
    · rw [tail_preserves _ _ _ _ (Or.inr hct) hn3]
      exact h3

/-- Witness for `redaction_amended`: default redact set, an inbound
`Authorization` header is forwarded as the marker, and the two forced
headers carry the configured values. -/
theorem redaction_amended_witness :
    hget (forwardHeaders [("Authorization", "Bearer t"), ("cookie", "a=1")] none "tk" none "")
      "authorization" = some REDACTED ∧
    hget (forwardHeaders [("Authorization", "Bearer t"), ("cookie", "a=1")] none "tk" none "")
      "x-tenant-key" = some "tk" ∧
    hget (forwardHeaders [("Authorization", "Bearer t"), ("cookie", "a=1")] none "tk" none "")
      "user-agent" = some UA := by
  have h := redaction_amended [("Authorization", "Bearer t"), ("cookie", "a=1")] none "tk" "" none
  exact ⟨h.2.2 "authorization" (by decide) (by decide) (by decide) (by decide)
      (fun _ => by decide), h.1, h.2.1⟩

/-! ## Timer lemmas -/

theorem timerFold_invariant (evs : List TimerEvent) (st : TimerState)
    (h : st.outstanding = if st.flushScheduled then 1 else 0) :
    (evs.foldl timerStep st).outstanding
      = if (evs.foldl timerStep st).flushScheduled then 1 else 0 := by
  induction evs generalizing st with
  | nil => exact h
  | cons ev rest ih =>
    apply ih
    cases ev with
    | append full =>
      by_cases hf : full
      · simpa [timerStep, hf] using h
      · by_cases hs : st.flushScheduled
        · simpa [timerStep, hf, hs] using h
        · simp [timerStep, hf, hs]
          simpa [hs] using h
    | fire =>
      by_cases hs : st.flushScheduled <;> simp [hs] at h <;> simp [timerStep, h]

/-- C9: one `logAndBatch`/`scheduleFlush` instance arms a timer only when
`flushScheduled` is false (and then sets it true and adds one outstanding
timer), never arms on the size-trigger branch, resets the flag to false on
fire before the flush decision (which depends only on the queue length), and
consequently along every event interleaving at most one timer is
outstanding — exactly one when `flushScheduled`, none otherwise. -/
theorem single_timer_invariant (evs : List TimerEvent) :
    (∀ st : TimerState, st.flushScheduled = true → ∀ full, timerStep st (.append full) = st) ∧
    (∀ st : TimerState, st.flushScheduled = false →
      (timerStep st (.append false)).flushScheduled = true ∧
      (timerStep st (.append false)).outstanding = st.outstanding + 1) ∧
    (∀ st : TimerState, (timerStep st .fire).flushScheduled = false) ∧
    (∀ q : Nat, (timerFire q).1 = false ∧ ((timerFire q).2 = true ↔ 0 < q)) ∧
    ((evs.foldl timerStep ⟨false, 0⟩).outstanding ≤ 1 ∧
      (evs.foldl timerStep ⟨false, 0⟩).outstanding
        = if (evs.foldl timerStep ⟨false, 0⟩).flushScheduled then 1 else 0) := by
  have hinv := timerFold_invariant evs ⟨false, 0⟩ rfl
  refine ⟨?_, ?_, ?_, ?_, ?_, hinv⟩
  · intro st h full
    cases full <;> simp [timerStep, h]
  · intro st h
    simp [timerStep, h]
  · intro st
    simp [timerStep]
  · intro q
    simp [timerFire]
  · rw [hinv]
    split <;> omega

/-- Witness for `single_timer_invariant` on a concrete interleaving. -/
theorem single_timer_invariant_witness :
    timerStep ⟨true, 1⟩ (.append false) = ⟨true, 1⟩ ∧
    (timerStep ⟨false, 0⟩ (.append false)).flushScheduled = true ∧
    (([TimerEvent.append false, .append false, .fire, .append true]).foldl
        timerStep ⟨false, 0⟩).outstanding ≤ 1 := by
  have h := single_timer_invariant [TimerEvent.append false, .append false, .fire, .append true]
  exact ⟨h.1 ⟨true, 1⟩ rfl false, (h.2.1 ⟨false, 0⟩ rfl).1, h.2.2.2.2.1⟩

end Oneclick
